import Mathlib

/-!
Shallow embedding of `src/object.rs` of the javascriptcore.rs handle layer.

The native JavaScriptCore engine is an external collaborator reached through
the `sys` FFI crate; it is modelled abstractly as a structure of pure
functions over numeric raw references. All wrapper types and operations
(`JSObject::property_names`, `get_property`, `get_property_at_index`,
`Deref`, and the `Iterator` impl of `JSObjectPropertyNameIter`) are
translated directly from the source.
-/

namespace JSC

/-- Raw engine references (pointers at the FFI boundary) are modelled as
natural numbers; only their identity matters to the wrapper layer. -/
abbrev JSContextRef := Nat

/-- Raw engine value reference. -/
abbrev JSValueRef := Nat

/-- Raw engine object reference. -/
abbrev JSObjectRef := Nat

/-- Raw engine string reference. -/
abbrev JSStringRef := Nat

/-- Raw engine property-name-array reference. -/
abbrev JSPropertyNameArrayRef := Nat

/-- Abstract model of the native engine (the `sys` FFI surface used by
`src/object.rs`). Each field models one engine entry point as a pure
function. `JSObjectGetProperty` and `JSObjectGetPropertyAtIndex` return the
value reference together with the contents the engine writes into the
caller-supplied exception out-parameter slot (`none` when no exception is
thrown). The extra fields `undefinedValue`, `resolves` and `decimalString`
model engine-side notions the crate documentation refers to: the context's
undefined value, whether a property name resolves on an object, and the
decimal string for a numeric index. -/
structure Engine where
  JSObjectCopyPropertyNames : JSContextRef → JSObjectRef → JSPropertyNameArrayRef
  JSPropertyNameArrayGetCount : JSPropertyNameArrayRef → Nat
  JSPropertyNameArrayGetNameAtIndex : JSPropertyNameArrayRef → Nat → JSStringRef
  JSObjectHasProperty : JSContextRef → JSObjectRef → JSStringRef → Bool
  JSObjectGetProperty : JSContextRef → JSObjectRef → JSStringRef → JSValueRef × Option JSValueRef
  JSObjectGetPropertyAtIndex : JSContextRef → JSObjectRef → Nat → JSValueRef × Option JSValueRef
  JSValueIsObject : JSContextRef → JSValueRef → Bool
  undefinedValue : JSContextRef → JSValueRef
  resolves : JSContextRef → JSObjectRef → JSStringRef → Bool
  decimalString : Nat → JSStringRef

/-- `JSValue`: a raw engine value reference together with the context that
produced it (fields `raw` and `ctx`, as in the crate). -/
structure JSValue where
  raw : JSValueRef
  ctx : JSContextRef
deriving DecidableEq

/-- `JSObject`: a raw object reference plus the embedded `JSValue` it
refines (field `value`), as in the crate. -/
structure JSObject where
  raw : JSObjectRef
  value : JSValue
deriving DecidableEq

/-- `JSString`: an immutable string handle wrapping a raw engine string
reference. -/
structure JSString where
  raw : JSStringRef
deriving DecidableEq

/-- `JSObjectPropertyNameIter`: the enumeration cursor, holding the raw
property-name-array reference `raw` and the cursor index `idx` (a `usize`
in the source, modelled as `Nat`). -/
structure JSObjectPropertyNameIter where
  raw : JSPropertyNameArrayRef
  idx : Nat
deriving DecidableEq

/-- `JSObject::property_names`: asks the engine to copy the object's
property names into a fresh array and wraps the array reference in a cursor
starting at index 0. -/
def property_names (e : Engine) (o : JSObject) : JSObjectPropertyNameIter :=
  { raw := e.JSObjectCopyPropertyNames o.value.ctx o.raw, idx := 0 }

/-- `JSObject::has_property`: forwards to the engine. -/
def has_property (e : Engine) (o : JSObject) (name : JSString) : Bool :=
  e.JSObjectHasProperty o.value.ctx o.raw name.raw

/-- `JSObject::get_property`: calls the engine with an exception
out-parameter slot, ignores the slot, and wraps the returned raw value with
the object's own context reference. -/
def get_property (e : Engine) (o : JSObject) (name : JSString) : JSValue :=
  { raw := (e.JSObjectGetProperty o.value.ctx o.raw name.raw).1, ctx := o.value.ctx }

/-- `JSObject::get_property_at_index`: calls the engine's indexed accessor
with an exception out-parameter slot, ignores the slot, and wraps the
returned raw value with the object's own context reference. -/
def get_property_at_index (e : Engine) (o : JSObject) (index : Nat) : JSValue :=
  { raw := (e.JSObjectGetPropertyAtIndex o.value.ctx o.raw index).1, ctx := o.value.ctx }

/-- `impl Deref for JSObject`: dereferencing an object handle yields its
embedded value handle. -/
def deref (o : JSObject) : JSValue :=
  o.value

/-- Modelled from the spec: `JSValue::is_object` lives in the repository's
value module, which is not under `src/`; per the spec an object handle "is"
a value and the engine decides whether a value reference is an object. -/
def is_object (e : Engine) (v : JSValue) : Bool :=
  e.JSValueIsObject v.ctx v.raw

/-- Modelled from the spec: `JSValue::as_object` lives in the repository's
value module, which is not under `src/`; per the spec it produces an object
handle embedding the very value it was derived from, exactly when the
engine reports the value is an object. -/
def as_object (e : Engine) (v : JSValue) : Option JSObject :=
  if e.JSValueIsObject v.ctx v.raw then some { raw := v.raw, value := v } else none

/-- `Iterator::next` for `JSObjectPropertyNameIter`: reads the current
count from the array reference; when `idx < count` it fetches the name
reference at `idx`, wraps it as a `JSString`, increments `idx`, and
produces the name; otherwise it produces `none` and leaves the state
unchanged. Returned as (produced item, successor state), making the `&mut
self` state passing explicit. -/
def next (e : Engine) (s : JSObjectPropertyNameIter) :
    Option JSString × JSObjectPropertyNameIter :=
  if s.idx < e.JSPropertyNameArrayGetCount s.raw then
    (some { raw := e.JSPropertyNameArrayGetNameAtIndex s.raw s.idx },
      { raw := s.raw, idx := s.idx + 1 })
  else
    (none, s)

/-- Rust `usize` subtraction as it appears in `size_hint`: it panics on
underflow (debug) rather than producing a value, modelled by `none`. -/
def checkedSub (a b : Nat) : Option Nat :=
  if b ≤ a then some (a - b) else none

/-- `Iterator::size_hint` for `JSObjectPropertyNameIter`: the source
computes `let sz = JSPropertyNameArrayGetCount(raw)` and returns
`(sz - self.idx, Some(sz))`. `none` models an underflowing subtraction. -/
def size_hint (e : Engine) (s : JSObjectPropertyNameIter) : Option (Nat × Option Nat) :=
  let sz := e.JSPropertyNameArrayGetCount s.raw
  match checkedSub sz s.idx with
  | some d => some (d, some sz)
  | none => none

/-- Engine release calls performed when a `JSObjectPropertyNameIter` goes
out of scope. The source declares no `Drop` implementation for the struct,
and its fields are a raw array reference and a `usize`, whose drop glue
performs no engine calls; dropping the cursor therefore performs zero
`JSPropertyNameArrayRelease` calls, in every state. -/
def dropReleaseCalls (_s : JSObjectPropertyNameIter) : Nat :=
  0

/-- The step operation as the specification words it: read the current
element count from the array reference; if `index < count`, fetch the name
reference at position `index`, wrap it as a property-name value, increment
`index` by one, and produce that value; otherwise produce the terminal
signal and leave the state unchanged. Written from the spec's words, to be
compared with `next` (translated from the source). -/
def nextSpec (e : Engine) (s : JSObjectPropertyNameIter) :
    Option JSString × JSObjectPropertyNameIter :=
  let count := e.JSPropertyNameArrayGetCount s.raw
  if s.idx < count then
    let name := e.JSPropertyNameArrayGetNameAtIndex s.raw s.idx
    (some { raw := name }, { raw := s.raw, idx := s.idx + 1 })
  else
    (none, s)

/-- Cursor states reachable from construction by `property_names` under a
fixed engine, via any number of `next` steps. -/
inductive Reachable (e : Engine) : JSObjectPropertyNameIter → Prop where
  | init (o : JSObject) : Reachable e (property_names e o)
  | step (s : JSObjectPropertyNameIter) : Reachable e s → Reachable e (next e s).2

/-- Iterating the state component of `next` a given number of times. -/
def skipSteps (e : Engine) : Nat → JSObjectPropertyNameIter → JSObjectPropertyNameIter
  | 0, s => s
  | n + 1, s => skipSteps e n (next e s).2

/-- The list of array positions read by the cursor over the next `n` steps
(each produced element is read at the state's current index). -/
def readTrace (e : Engine) : Nat → JSObjectPropertyNameIter → List Nat
  | 0, _ => []
  | n + 1, s =>
    match next e s with
    | (some _, t) => s.idx :: readTrace e n t
    | (none, _) => []

theorem next_eq_some (e : Engine) (s : JSObjectPropertyNameIter) (a : JSString)
    (t : JSObjectPropertyNameIter) (h : next e s = (some a, t)) :
    t.idx = s.idx + 1 ∧ t.raw = s.raw := by
  unfold next at h
  by_cases hc : s.idx < e.JSPropertyNameArrayGetCount s.raw
  · rw [if_pos hc] at h
    cases h
    exact ⟨rfl, rfl⟩
  · rw [if_neg hc] at h
    simp at h

theorem next_terminal (e : Engine) (s : JSObjectPropertyNameIter)
    (h : e.JSPropertyNameArrayGetCount s.raw ≤ s.idx) : next e s = (none, s) := by
  unfold next
  rw [if_neg (by omega)]

theorem reachable_idx_le (e : Engine) {s : JSObjectPropertyNameIter}
    (h : Reachable e s) : s.idx ≤ e.JSPropertyNameArrayGetCount s.raw := by
  induction h with
  | init o => exact Nat.zero_le _
  | step t ht ih =>
      unfold next
      by_cases hc : t.idx < e.JSPropertyNameArrayGetCount t.raw
      · rw [if_pos hc]
        exact hc
      · rw [if_neg hc]
        exact ih

theorem readTrace_le (e : Engine) :
    ∀ (n : Nat) (s : JSObjectPropertyNameIter), ∀ y ∈ readTrace e n s, s.idx ≤ y := by
  intro n
  induction n with
  | zero =>
      intro s y hy
      simp [readTrace] at hy
  | succ n ih =>
      intro s y hy
      unfold readTrace at hy
      rcases hnext : next e s with ⟨ox, t⟩
      rw [hnext] at hy
      cases ox with
      | none => simp at hy
      | some a =>
          simp only [List.mem_cons] at hy
          rcases hy with hy | hy
          · omega
          · have h1 := ih t y hy
            have h2 := (next_eq_some e s a t hnext).1
            omega

theorem readTrace_pairwise (e : Engine) :
    ∀ (n : Nat) (s : JSObjectPropertyNameIter),
      List.Pairwise (fun a b => a < b) (readTrace e n s) := by
  intro n
  induction n with
  | zero =>
      intro s
      simp [readTrace]
  | succ n ih =>
      intro s
      unfold readTrace
      rcases hnext : next e s with ⟨ox, t⟩
      cases ox with
      | none => simp
      | some a =>
          refine List.Pairwise.cons ?_ (ih t)
          intro y hy
          have h1 := readTrace_le e n t y hy
          have h2 := (next_eq_some e s a t hnext).1
          omega

/-- A concrete engine for witnesses: every property-name array has 2
elements, and every value is an object. -/
def iterE2 : Engine :=
  { JSObjectCopyPropertyNames := fun _ _ => 7,
    JSPropertyNameArrayGetCount := fun _ => 2,
    JSPropertyNameArrayGetNameAtIndex := fun _ i => 10 + i,
    JSObjectHasProperty := fun _ _ _ => false,
    JSObjectGetProperty := fun _ _ _ => (0, none),
    JSObjectGetPropertyAtIndex := fun _ _ _ => (0, none),
    JSValueIsObject := fun _ _ => true,
    undefinedValue := fun _ => 0,
    resolves := fun _ _ _ => false,
    decimalString := fun i => i }

/-- A concrete object handle for witnesses. -/
def obj0 : JSObject :=
  { raw := 3, value := { raw := 3, ctx := 1 } }

/-- The cursor freshly constructed on `obj0` under `iterE2`. -/
def iterS0 : JSObjectPropertyNameIter :=
  property_names iterE2 obj0

/-- The cursor after one element has been consumed. -/
def iterS1 : JSObjectPropertyNameIter :=
  (next iterE2 iterS0).2

/-- A cursor in the terminal state (index equals the count 2). -/
def iterT : JSObjectPropertyNameIter :=
  { raw := 7, idx := 2 }

/-- A concrete engine whose `get_property` entry point writes an exception
into the out-parameter slot and returns the undefined value, and on which
no name resolves. -/
def engineC6 : Engine :=
  { JSObjectCopyPropertyNames := fun _ _ => 0,
    JSPropertyNameArrayGetCount := fun _ => 0,
    JSPropertyNameArrayGetNameAtIndex := fun _ _ => 0,
    JSObjectHasProperty := fun _ _ _ => false,
    JSObjectGetProperty := fun _ _ _ => (0, some 99),
    JSObjectGetPropertyAtIndex := fun _ _ _ => (0, none),
    JSValueIsObject := fun _ _ => true,
    undefinedValue := fun _ => 0,
    resolves := fun _ _ _ => false,
    decimalString := fun i => i }

/-- A concrete engine on which indexed access agrees with string-keyed
access at the index's decimal string, as the crate documentation states of
the real engine. -/
def engineC8 : Engine :=
  { JSObjectCopyPropertyNames := fun _ _ => 0,
    JSPropertyNameArrayGetCount := fun _ => 0,
    JSPropertyNameArrayGetNameAtIndex := fun _ _ => 0,
    JSObjectHasProperty := fun _ _ _ => false,
    JSObjectGetProperty := fun c r nm => (c + r + nm, none),
    JSObjectGetPropertyAtIndex := fun c r i => (c + r + (1000 + i), none),
    JSValueIsObject := fun _ _ => false,
    undefinedValue := fun _ => 0,
    resolves := fun _ _ _ => true,
    decimalString := fun i => 1000 + i }

/-- A concrete value handle for the delegation witness. -/
def valW : JSValue :=
  { raw := 4, ctx := 1 }

/-- The object handle derived from `valW` under `iterE2`. -/
def objW : JSObject :=
  { raw := 4, value := valW }

/-- C1: the claim requires that dropping the cursor releases the backing
property-name array exactly once on every exit path. The source declares no
`Drop` implementation for `JSObjectPropertyNameIter`, so for every cursor
state (any number of elements consumed) dropping performs zero release
calls — never the required one. -/
theorem C1_drop_never_releases (s : JSObjectPropertyNameIter) :
    dropReleaseCalls s = 0 ∧ dropReleaseCalls s ≠ 1 :=
  ⟨rfl, Nat.zero_ne_one⟩

/-- C2 counterexample: in the reachable state `iterS1` (count 2, one
element consumed), `size_hint` reports upper bound `some 2`, not the
claimed `some (count - index) = some 1`. -/
theorem C2_counterexample :
    Reachable iterE2 iterS1 ∧
      size_hint iterE2 iterS1 ≠
        some (iterE2.JSPropertyNameArrayGetCount iterS1.raw - iterS1.idx,
          some (iterE2.JSPropertyNameArrayGetCount iterS1.raw - iterS1.idx)) := by
  constructor
  · exact Reachable.step iterS0 (Reachable.init obj0)
  · decide

/-- C2 (amended): in every reachable cursor state, `size_hint` returns the
lower bound `count - index` and the upper bound `some count`; the upper
bound is exact only at `index = 0`. -/
theorem C2_size_hint_amended (e : Engine) (s : JSObjectPropertyNameIter)
    (h : Reachable e s) :
    size_hint e s =
      some (e.JSPropertyNameArrayGetCount s.raw - s.idx,
        some (e.JSPropertyNameArrayGetCount s.raw)) := by
  have hle := reachable_idx_le e h
  simp [size_hint, checkedSub, hle]

/-- Witness for C2 (amended) at the concrete reachable state `iterS1`. -/
theorem C2_size_hint_amended_witness :
    size_hint iterE2 iterS1 =
      some (iterE2.JSPropertyNameArrayGetCount iterS1.raw - iterS1.idx,
        some (iterE2.JSPropertyNameArrayGetCount iterS1.raw)) :=
  C2_size_hint_amended iterE2 iterS1 (Reachable.step iterS0 (Reachable.init obj0))

/-- C3: once `index = count`, every later state equals the terminal state
and every subsequent step produces the terminal signal `none`. -/
theorem C3_terminal_idempotent (e : Engine) (s : JSObjectPropertyNameIter) (k : Nat)
    (h : s.idx = e.JSPropertyNameArrayGetCount s.raw) :
    skipSteps e k s = s ∧ (next e (skipSteps e k s)).1 = none := by
  have hterm : next e s = (none, s) := next_terminal e s (le_of_eq h.symm)
  have hfix : ∀ m, skipSteps e m s = s := by
    intro m
    induction m with
    | zero => rfl
    | succ m ih =>
        show skipSteps e m (next e s).2 = s
        rw [hterm]
        exact ih
  refine ⟨hfix k, ?_⟩
  rw [hfix k, hterm]

/-- Witness for C3 at a concrete terminal cursor, three further steps. -/
theorem C3_terminal_idempotent_witness :
    skipSteps iterE2 3 iterT = iterT ∧ (next iterE2 (skipSteps iterE2 3 iterT)).1 = none :=
  C3_terminal_idempotent iterE2 iterT 3 rfl

/-- C4: one step of the cursor, as translated from the source, coincides
with the step operation as the specification words it (read the count
fresh; under `index < count` fetch the name at `index`, wrap it, increment
`index`, produce it; otherwise produce terminal and leave the state
unchanged). -/
theorem C4_next_refines_spec (e : Engine) (s : JSObjectPropertyNameIter) :
    next e s = nextSpec e s := by
  unfold next nextSpec
  rfl

/-- C5: in every reachable cursor state, `0 ≤ index ≤ count`, and the array
positions read over any number of further steps are strictly increasing —
the cursor never re-reads a position it has already produced. -/
theorem C5_cursor_invariant (e : Engine) (s : JSObjectPropertyNameIter) (n : Nat)
    (h : Reachable e s) :
    0 ≤ s.idx ∧ s.idx ≤ e.JSPropertyNameArrayGetCount s.raw ∧
      List.Pairwise (fun a b => a < b) (readTrace e n s) :=
  ⟨Nat.zero_le _, reachable_idx_le e h, readTrace_pairwise e n s⟩

/-- Witness for C5 at the concrete reachable state `iterS1`, trace length 3. -/
theorem C5_cursor_invariant_witness :
    0 ≤ iterS1.idx ∧ iterS1.idx ≤ iterE2.JSPropertyNameArrayGetCount iterS1.raw ∧
      List.Pairwise (fun a b => a < b) (readTrace iterE2 3 iterS1) :=
  C5_cursor_invariant iterE2 iterS1 3 (Reachable.step iterS0 (Reachable.init obj0))

/-- C6: `get_property` always returns a value handle. Under the engine's
documented fallback (an unresolved name yields the undefined value), the
returned handle is the undefined value for unresolved names; and the
exception written into the out-parameter slot never reaches the caller —
replacing the slot contents by anything leaves the result unchanged. -/
theorem C6_get_property_no_error (e : Engine) (o : JSObject) (n : JSString)
    (hund : e.resolves o.value.ctx o.raw n.raw = false →
      (e.JSObjectGetProperty o.value.ctx o.raw n.raw).1 = e.undefinedValue o.value.ctx) :
    (e.resolves o.value.ctx o.raw n.raw = false →
        (get_property e o n).raw = e.undefinedValue o.value.ctx) ∧
      ∀ exc : Option JSValueRef,
        get_property
            { e with JSObjectGetProperty := fun c r nm => ((e.JSObjectGetProperty c r nm).1, exc) }
            o n
          = get_property e o n := by
  constructor
  · intro h
    exact hund h
  · intro exc
    rfl

/-- Witness for C6 on `engineC6`, where the looked-up name is unresolved
and the engine writes an exception into the slot. -/
theorem C6_get_property_no_error_witness :
    (get_property engineC6 obj0 { raw := 5 }).raw = engineC6.undefinedValue obj0.value.ctx :=
  (C6_get_property_no_error engineC6 obj0 { raw := 5 } (fun _ => rfl)).1 rfl

/-- C7: for an object handle `o` derived from a value `v`, the dereferenced
handle is the embedded value itself, so `is_object` on the dereferenced
handle agrees with `is_object` on `v`, and both are true. -/
theorem C7_deref_delegation (e : Engine) (v : JSValue) (o : JSObject)
    (h : as_object e v = some o) :
    is_object e (deref o) = is_object e v ∧ is_object e v = true := by
  unfold as_object at h
  by_cases hv : e.JSValueIsObject v.ctx v.raw
  · rw [if_pos hv] at h
    cases h
    exact ⟨rfl, hv⟩
  · rw [if_neg hv] at h
    cases h

/-- Witness for C7 at the concrete value `valW` and its derived object. -/
theorem C7_deref_delegation_witness :
    is_object iterE2 (deref objW) = is_object iterE2 valW ∧ is_object iterE2 valW = true :=
  C7_deref_delegation iterE2 valW objW rfl

/-- C8: when the engine's indexed accessor agrees with its string accessor
at the index's decimal string (the crate-documented engine contract),
`get_property_at_index` returns the same value handle as `get_property` on
the decimal-string name; and `get_property_at_index` never consults the
string accessor or the decimal conversion — changing both arbitrarily
leaves its result unchanged, i.e. it uses only the indexed path. -/
theorem C8_index_agrees_with_name (e : Engine) (o : JSObject) (index : Nat)
    (hidx : ∀ (c : JSContextRef) (r : JSObjectRef) (i : Nat),
      (e.JSObjectGetPropertyAtIndex c r i).1 = (e.JSObjectGetProperty c r (e.decimalString i)).1) :
    get_property_at_index e o index = get_property e o { raw := e.decimalString index } ∧
      ∀ (f : JSContextRef → JSObjectRef → JSStringRef → JSValueRef × Option JSValueRef)
        (g : Nat → JSStringRef),
        get_property_at_index { e with JSObjectGetProperty := f, decimalString := g } o index
          = get_property_at_index e o index := by
  constructor
  · unfold get_property_at_index get_property
    rw [hidx]
  · intro f g
    rfl

/-- Witness for C8 on `engineC8` at index 5. -/
theorem C8_index_agrees_with_name_witness :
    get_property_at_index engineC8 obj0 5
      = get_property engineC8 obj0 { raw := engineC8.decimalString 5 } :=
  (C8_index_agrees_with_name engineC8 obj0 5 (fun _ _ _ => rfl)).1

/-- C9: in every reachable cursor state the index is at most the array's
count, so the `usize` subtraction `sz - self.idx` in `size_hint` cannot
underflow — `size_hint` always produces a value there. -/
theorem C9_size_hint_no_underflow (e : Engine) (s : JSObjectPropertyNameIter)
    (h : Reachable e s) :
    s.idx ≤ e.JSPropertyNameArrayGetCount s.raw ∧ (size_hint e s).isSome = true := by
  have hle := reachable_idx_le e h
  refine ⟨hle, ?_⟩
  simp [size_hint, checkedSub, hle]

/-- Witness for C9 at the concrete reachable state `iterS1`. -/
theorem C9_size_hint_no_underflow_witness :
    iterS1.idx ≤ iterE2.JSPropertyNameArrayGetCount iterS1.raw ∧
      (size_hint iterE2 iterS1).isSome = true :=
  C9_size_hint_no_underflow iterE2 iterS1 (Reachable.step iterS0 (Reachable.init obj0))

/-- C10: every value handle returned by `get_property` or
`get_property_at_index` carries the same context reference as the object
handle it was obtained from. -/
theorem C10_ctx_preserved (e : Engine) (o : JSObject) (n : JSString) (i : Nat) :
    (get_property e o n).ctx = o.value.ctx ∧
      (get_property_at_index e o i).ctx = o.value.ctx :=
  ⟨rfl, rfl⟩

end JSC
